import Mathlib

/-! Verification of the social-media-network ranking engine.

This file gives a shallow embedding of the core of the repository:
the attribute-filtering system and interest scoring of `algorithm2.py`
(`filter_users_by_attributes`, `calculate_interest_score`,
`find_interesting_users_interactive`, `SocialGraph._estimate_reading_level`,
`SocialGraph._calculate_user_metrics`) and the trending-score computation of
`trending_posts.py` (`compute_trending_score`).

Python dictionaries of node attributes / criteria are modelled as insertion
ordered association lists over a value type `Val` covering the numbers and
strings the code stores there (Python int/float arithmetic is modelled with
exact rationals).  Operations that can raise a Python `TypeError` (ordering
comparisons between a number and a string) return `Option`; everything else
is total, exactly as in the source.
-/

namespace SocialNetwork

/-- A scalar value stored in a node-attribute dictionary or in a criteria
or filter dictionary: a number (Python `int`/`float`, modelled exactly as `ℚ`)
or a string. -/
inductive Val where
  | num (q : ℚ)
  | str (s : String)
deriving DecidableEq, Repr

/-- A Python dictionary with string keys, in insertion order. -/
abbrev Attrs := List (String × Val)

/-- Python `d.get(key)`: first binding of `key`, if any (dict keys are unique, so
first binding = the binding). -/
def lookupVal (d : Attrs) (key : String) : Option Val :=
  match d with
  | [] => none
  | (k, v) :: rest => if k = key then some v else lookupVal rest key

/-- Python `d.get(key, dflt)` with a `Val` default. -/
def getValD (d : Attrs) (key : String) (dflt : Val) : Val :=
  (lookupVal d key).getD dflt

/-- Python `d.get(key, dflt)` for a numeric attribute: the stored number when the
key is bound to one, the default otherwise.  (The graph store only ever
binds numbers to the numeric keys this is used with.) -/
def getNumD (d : Attrs) (key : String) (dflt : ℚ) : ℚ :=
  match lookupVal d key with
  | some (.num x) => x
  | _ => dflt

/-- Python `<` on two scalar values: defined on two numbers or two strings,
a `TypeError` (`none`) on a mixed comparison. -/
def pyLt : Val → Val → Option Bool
  | .num a, .num b => some (decide (a < b))
  | .str a, .str b => some (decide (a < b))
  | _, _ => none

/-- Python `>` on two scalar values. -/
def pyGt (a b : Val) : Option Bool := pyLt b a

/-- The filter-matching loop of `filter_users_by_attributes`
(src/algorithm2.py lines 163-175): every filter entry must hold; the keys
`"age_min"` / `"age_max"` compare the `"age"` attribute numerically with
sentinels 0 / 100 for a missing age; every other key is an exact-match
test `node_data.get(attr) != value`.  Returns `none` when the Python code
would raise a `TypeError`. -/
def matchesFilters (node : Attrs) : List (String × Val) → Option Bool
  | [] => some true
  | (attr, value) :: rest =>
    if attr = "age_min" then
      match pyLt (getValD node "age" (.num 0)) value with
      | none => none
      | some true => some false
      | some false => matchesFilters node rest
    else if attr = "age_max" then
      match pyGt (getValD node "age" (.num 100)) value with
      | none => none
      | some true => some false
      | some false => matchesFilters node rest
    else
      if lookupVal node attr = some value then matchesFilters node rest
      else some false

/-- The check `node_data.get("type") == "user"`. -/
def isUserNode (d : Attrs) : Bool :=
  lookupVal d "type" = some (.str "user")

/-- The function `filter_users_by_attributes(network, attribute_filters)`
(src/algorithm2.py lines 157-180): walk the node table in insertion order,
keep the user-typed nodes whose attributes pass every filter. -/
def filter_users_by_attributes :
    List (String × Attrs) → List (String × Val) → Option (List (String × Attrs))
  | [], _ => some []
  | (id, d) :: rest, filters =>
    if isUserNode d then
      match matchesFilters d filters, filter_users_by_attributes rest filters with
      | none, _ => none
      | some true, none => none
      | some true, some r => some ((id, d) :: r)
      | some false, o => o
    else filter_users_by_attributes rest filters

/-- The lookup `reading_levels.get(x, 2)` for `reading_levels = {"low":1,"medium":2,"high":3}`
(src/algorithm2.py lines 138-139). -/
def readingLevelsGet (v : Val) : ℚ :=
  match v with
  | .str "low" => 1
  | .str "medium" => 2
  | .str "high" => 3
  | _ => 2

/-- The function `calculate_interest_score(user_data, criteria)` (src/algorithm2.py
lines 128-154): weighted sum of post count, reading level, comment count
and total views, clamped below at 0. -/
def calculate_interest_score (user_data criteria : Attrs) : ℚ :=
  let postScore : ℚ :=
    if lookupVal criteria "post_count_preference" = some (.str "high") then
      getNumD user_data "post_count" 0 * getNumD criteria "post_weight" 1
    else if lookupVal criteria "post_count_preference" = some (.str "low") then
      (20 - getNumD user_data "post_count" 0) * getNumD criteria "post_weight" 1
    else 0
  let userReading : ℚ := readingLevelsGet (getValD user_data "reading_level" (.str "medium"))
  let readingScore : ℚ :=
    if lookupVal criteria "reading_level_preference" = some (.str "high") then
      userReading * getNumD criteria "reading_weight" 1
    else if lookupVal criteria "reading_level_preference" = some (.str "low") then
      (4 - userReading) * getNumD criteria "reading_weight" 1
    else 0
  let commentScore : ℚ :=
    if lookupVal criteria "comment_preference" = some (.str "high") then
      getNumD user_data "comment_count" 0 * getNumD criteria "comment_weight" 1
    else if lookupVal criteria "comment_preference" = some (.str "low") then
      (100 - getNumD user_data "comment_count" 0) * getNumD criteria "comment_weight" 1
    else 0
  let viewScore : ℚ := getNumD user_data "total_views" 0 * getNumD criteria "view_weight" (1/10)
  max 0 (postScore + readingScore + commentScore + viewScore)

/-- One result record `{"user_id": ..., "score": ..., "data": ...}` of
`find_interesting_users_interactive`. -/
structure RankedUser where
  user_id : String
  score : ℚ
  data : Attrs
deriving DecidableEq, Repr

/-- The order in which `heapq.heappop` yields the pushed tuples
`(-interest_score, user_id, user_data)`: ascending negated score, ties by
ascending id (Python tuple comparison; the third component is never
compared because node ids are unique). -/
def entryLe (a b : ℚ × String × Attrs) : Prop :=
  a.1 < b.1 ∨ (a.1 = b.1 ∧ a.2.1 ≤ b.2.1)

instance : DecidableRel entryLe := fun a b => by
  unfold entryLe; infer_instance

instance : IsTotal (ℚ × String × Attrs) entryLe := by
  constructor
  intro a b
  rcases lt_trichotomy a.1 b.1 with h | h | h
  · exact Or.inl (Or.inl h)
  · rcases le_total a.2.1 b.2.1 with h2 | h2
    · exact Or.inl (Or.inr ⟨h, h2⟩)
    · exact Or.inr (Or.inr ⟨h.symm, h2⟩)
  · exact Or.inr (Or.inl h)

instance : IsTrans (ℚ × String × Attrs) entryLe := by
  constructor
  intro a b c hab hbc
  rcases hab with h1 | ⟨e1, l1⟩
  · rcases hbc with h2 | ⟨e2, _⟩
    · exact Or.inl (h1.trans h2)
    · exact Or.inl (e2 ▸ h1)
  · rcases hbc with h2 | ⟨e2, l2⟩
    · exact Or.inl (e1 ▸ h2)
    · exact Or.inr ⟨e1.trans e2, l1.trans l2⟩

/-- The scoring-and-extraction phase of `find_interesting_users_interactive`
(src/algorithm2.py lines 192-210): push `(-score, id, data)` for every
candidate onto a min-heap, then pop `min(num_users, n)` times (an empty
range when `num_users ≤ 0`).  Since node ids are unique, the popped
sequence is the `entryLe`-sorted sequence of entries; the heap is modelled
by a stable sort. -/
def select_top_users (candidates : List (String × Attrs)) (criteria : Attrs)
    (num_users : ℤ) : List RankedUser :=
  ((List.insertionSort entryLe
      (candidates.map fun c => (-(calculate_interest_score c.2 criteria), c.1, c.2))).take
    (min num_users (candidates.length : ℤ)).toNat).map
  fun e => ⟨e.2.1, -e.1, e.2.2⟩

/-- The candidate-collection phase of `find_interesting_users_interactive`
(src/algorithm2.py lines 184-190): when `attribute_filters` is truthy (a
non-empty dict), filter by attributes; otherwise (absent `None` or the
falsy empty dict) take every user-typed node of the node table in order. -/
def candidate_users (nodes : List (String × Attrs))
    (attribute_filters : Option (List (String × Val))) :
    Option (List (String × Attrs)) :=
  match attribute_filters with
  | some fs =>
    if fs.isEmpty then some (nodes.filter fun p => isUserNode p.2)
    else filter_users_by_attributes nodes fs
  | none => some (nodes.filter fun p => isUserNode p.2)

/-- The function `find_interesting_users_interactive(network, criteria,
attribute_filters, num_users)` (src/algorithm2.py lines 183-210): collect candidates, score
them, extract the top `num_users`. -/
def find_interesting_users_interactive (nodes : List (String × Attrs))
    (criteria : Attrs) (attribute_filters : Option (List (String × Val)))
    (num_users : ℤ) : Option (List RankedUser) :=
  (candidate_users nodes attribute_filters).map
    fun cs => select_top_users cs criteria num_users

/-- Python `content.split()` on a text modelled as its character list:
split on whitespace runs, dropping the empty pieces. -/
def pySplit (content : List Char) : List (List Char) :=
  (content.splitOnP Char.isWhitespace).filter (fun w => !w.isEmpty)

/-- The mean word length of a text: `sum(len(word) for word in words) /
len(words)` (src/algorithm2.py line 101). -/
def meanWordLength (content : List Char) : ℚ :=
  (((pySplit content).map List.length).sum : ℚ) / ((pySplit content).length : ℚ)

/-- The method `SocialGraph._estimate_reading_level(content)` (src/algorithm2.py lines
95-108): `"low"` for a falsy (empty) string; otherwise the mean word length
decides: `> 6 → "high"`, `> 4 → "medium"`, else `"low"` (an empty word list
uses 0 instead of dividing, so no division by zero occurs). -/
def estimate_reading_level (content : List Char) : String :=
  if content.isEmpty then "low"
  else
    let words := pySplit content
    let avgWordLength : ℚ :=
      if words.isEmpty then 0
      else ((words.map List.length).sum : ℚ) / (words.length : ℚ)
    if 6 < avgWordLength then "high"
    else if 4 < avgWordLength then "medium"
    else "low"

/-- The `avg_reading_numeric` intermediate of
`SocialGraph._calculate_user_metrics` (src/algorithm2.py lines 71-72), as a
function of the contents of the user's authored posts: the mean of the
per-post reading levels mapped through
`{"low":1,"medium":2,"high":3}.get(_, 2)`. -/
def avgReadingNumeric (postContents : List (List Char)) : ℚ :=
  ((postContents.map fun c => readingLevelsGet (.str (estimate_reading_level c))).sum) /
    (postContents.length : ℚ)

/-- The rounding of `avg_reading_numeric` back to a categorical level, plus
the no-posts default (src/algorithm2.py lines 70-81). -/
def calculate_user_reading_level (postContents : List (List Char)) : String :=
  if postContents.isEmpty then "medium"
  else if avgReadingNumeric postContents ≤ 3/2 then "low"
  else if avgReadingNumeric postContents ≤ 5/2 then "medium"
  else "high"

/-- One record of a post's `"views"` list in `trending_posts.py`: a
timestamp (seconds, exact) and a view count. -/
structure ViewEvent where
  timestamp : ℚ
  count : ℤ
deriving DecidableEq, Repr

/-- Ascending view-timestamp order, the sort key of
`sorted(views, key=lambda x: datetime.fromisoformat(x["timestamp"]))`. -/
def viewLe (a b : ViewEvent) : Prop := a.timestamp ≤ b.timestamp

instance : DecidableRel viewLe := fun a b => by
  unfold viewLe; infer_instance

instance : IsTotal ViewEvent viewLe := ⟨fun a b => le_total a.timestamp b.timestamp⟩

instance : IsTrans ViewEvent viewLe := ⟨fun _ _ _ h1 h2 => le_trans h1 h2⟩

/-- The function `compute_trending_score(post)` (src/trending_posts.py lines 17-34):
0.0 with fewer than two view records; otherwise sort the views by
timestamp (stably) and divide the count difference between the last and
first record by the elapsed hours, returning 0 when no positive time
elapsed. -/
def compute_trending_score (views : List ViewEvent) : ℚ :=
  if views.length < 2 then 0
  else
    let viewsSorted := List.insertionSort viewLe views
    match viewsSorted.head?, viewsSorted.getLast? with
    | some v0, some vLast =>
      let hours : ℚ := (vLast.timestamp - v0.timestamp) / 3600
      if 0 < hours then ((vLast.count - v0.count : ℤ) : ℚ) / hours else 0
    | _, _ => 0

/-! The range-filter semantics described by the spec.

The specification describes a generic range-bound filter: a key
`<field>_min` / `<field>_max` is compared numerically against the
attribute named by stripping the suffix, with sentinel 0 for a missing
attribute under a min bound and 100 under a max bound.  This definition
follows the spec's words (not the source) and is compared against the
source's `matchesFilters`. -/
def rangeFilterMatches_spec (node : Attrs) (field : String) (bound : ℚ)
    (isMin : Bool) : Bool :=
  if isMin then !decide (getNumD node field 0 < bound)
  else !decide (bound < getNumD node field 100)

/-! Helper lemmas shared by the claim theorems. -/

/-- Every node kept by `filter_users_by_attributes` is user-typed. -/
theorem filter_users_mem_isUser :
    ∀ (N : List (String × Attrs)) (F : List (String × Val)) (r : List (String × Attrs)),
      filter_users_by_attributes N F = some r → ∀ p ∈ r, isUserNode p.2 = true := by
  intro N
  induction N with
  | nil =>
    intro F r h p hp
    simp only [filter_users_by_attributes, Option.some.injEq] at h
    subst h
    simp at hp
  | cons nd rest ih =>
    intro F r h p hp
    obtain ⟨id, d⟩ := nd
    simp only [filter_users_by_attributes] at h
    by_cases hu : isUserNode d
    · rw [if_pos hu] at h
      split at h
      · exact absurd h (by simp)
      · exact absurd h (by simp)
      · rename_i r' _ hrest
        injection h with h'
        subst h'
        rcases List.mem_cons.mp hp with rfl | hp'
        · exact hu
        · exact ih F r' hrest p hp'
      · exact ih F r h p hp
    · rw [if_neg hu] at h
      exact ih F r h p hp

/-- `filter_users_by_attributes` keeps an order-preserving subsequence of
the node table. -/
theorem filter_users_sublist :
    ∀ (N : List (String × Attrs)) (F : List (String × Val)) (r : List (String × Attrs)),
      filter_users_by_attributes N F = some r → r.Sublist N := by
  intro N
  induction N with
  | nil =>
    intro F r h
    simp only [filter_users_by_attributes, Option.some.injEq] at h
    subst h
    exact List.Sublist.refl []
  | cons nd rest ih =>
    intro F r h
    obtain ⟨id, d⟩ := nd
    simp only [filter_users_by_attributes] at h
    by_cases hu : isUserNode d
    · rw [if_pos hu] at h
      split at h
      · exact absurd h (by simp)
      · exact absurd h (by simp)
      · rename_i r' _ hrest
        injection h with h'
        subst h'
        exact (ih F r' hrest).cons₂ (id, d)
      · exact (ih F r h).cons (id, d)
    · rw [if_neg hu] at h
      exact (ih F r h).cons (id, d)

/-- With an empty filter spec, `filter_users_by_attributes` returns exactly
the user-typed nodes, in order. -/
theorem filter_users_nil_spec :
    ∀ N : List (String × Attrs),
      filter_users_by_attributes N [] = some (N.filter fun p => isUserNode p.2) := by
  intro N
  induction N with
  | nil => rfl
  | cons nd rest ih =>
    obtain ⟨id, d⟩ := nd
    simp only [filter_users_by_attributes, matchesFilters, ih, List.filter_cons]
    by_cases hu : isUserNode d
    · simp [hu]
    · simp [hu]

/-! Claim theorems. -/

/-- C2 counterexample.  The claim asserts `matches({}, {age_max: 30})`
evaluates to `true`; on the code it evaluates to `false`: the missing age
takes the sentinel 100 and `100 > 30` fails the filter. -/
theorem claim_C2_counterexample :
    matchesFilters [] [("age_max", Val.num 30)] = some false ∧
    matchesFilters [] [("age_max", Val.num 30)] ≠ some true := by
  have h : matchesFilters [] [("age_max", Val.num 30)] = some false := by
    simp only [matchesFilters, pyGt, pyLt, getValD, lookupVal, Option.getD]
    norm_num
  exact ⟨h, by rw [h]; simp⟩

/-- C2 (amended): on an empty attribute bundle both `{age_min: 30}` and
`{age_max: 30}` fail to match: the missing age uses sentinel 0 for the min
bound (`0 < 30` fails the filter) and sentinel 100 for the max bound
(`100 > 30` also fails the filter). -/
theorem claim_C2 :
    matchesFilters [] [("age_min", Val.num 30)] = some false ∧
    matchesFilters [] [("age_max", Val.num 30)] = some false := by
  constructor
  · simp only [matchesFilters, pyLt, getValD, lookupVal, Option.getD]
    norm_num
  · simp only [matchesFilters, pyGt, pyLt, getValD, lookupVal, Option.getD]
    norm_num

/-- C3 counterexample.  The claim asserts every `<field>_min` key is
compared numerically against the attribute named by stripping the suffix;
for the key `"income_min"` with bound 30 and a node whose `income` is 50
the spec's range semantics match (`¬ 50 < 30`), but the code treats
`"income_min"` as an exact-match key (absent from the node) and rejects. -/
theorem claim_C3_counterexample :
    matchesFilters [("income", Val.num 50)] [("income_min", Val.num 30)] = some false ∧
    rangeFilterMatches_spec [("income", Val.num 50)] "income" 30 true = true := by
  constructor
  · simp [matchesFilters, lookupVal]
  · simp only [rangeFilterMatches_spec, getNumD, lookupVal, if_true, if_pos rfl]
    norm_num

/-- C3 (amended): only the literal keys `"age_min"` and `"age_max"` act as
range bounds, compared numerically against the `"age"` attribute with
sentinels 0 and 100; every other filter key — including any other
`_min`/`_max`-suffixed key — is an exact-match filter on the full key
string. -/
theorem claim_C3 (node : Attrs) (attr : String) (v : Val) (b : ℚ)
    (hmin : attr ≠ "age_min") (hmax : attr ≠ "age_max")
    (hage : lookupVal node "age" = none ∨ ∃ q, lookupVal node "age" = some (Val.num q)) :
    matchesFilters node [(attr, v)] = some (decide (lookupVal node attr = some v)) ∧
    matchesFilters node [("age_min", Val.num b)] =
      some (rangeFilterMatches_spec node "age" b true) ∧
    matchesFilters node [("age_max", Val.num b)] =
      some (rangeFilterMatches_spec node "age" b false) := by
  have hval0 : getValD node "age" (Val.num 0) = Val.num (getNumD node "age" 0) := by
    rcases hage with h | ⟨q, h⟩ <;> simp [getValD, getNumD, h]
  have hval100 : getValD node "age" (Val.num 100) = Val.num (getNumD node "age" 100) := by
    rcases hage with h | ⟨q, h⟩ <;> simp [getValD, getNumD, h]
  refine ⟨?_, ?_, ?_⟩
  · simp only [matchesFilters, if_neg hmin, if_neg hmax]
    by_cases h : lookupVal node attr = some v
    · simp [h, matchesFilters]
    · simp [h]
  · simp only [matchesFilters, if_pos rfl, hval0, pyLt, rangeFilterMatches_spec, if_true]
    cases hq : decide (getNumD node "age" 0 < b)
    · simp [hq, matchesFilters]
    · simp [hq]
  · simp only [matchesFilters, if_neg (by decide : ¬("age_max" : String) = "age_min"),
      if_pos rfl, hval100, pyGt, pyLt, rangeFilterMatches_spec, Bool.false_eq_true,
      if_false]
    cases hq : decide (b < getNumD node "age" 100)
    · simp [hq, matchesFilters]
    · simp [hq]

/-- C3 witness: a concrete instantiation of the amended claim at the key
`"income_min"`. -/
theorem claim_C3_witness :
    ("income_min" : String) ≠ "age_min" ∧ ("income_min" : String) ≠ "age_max" ∧
    (lookupVal [("income", Val.num 50)] "age" = none ∨
      ∃ q, lookupVal [("income", Val.num 50)] "age" = some (Val.num q)) ∧
    matchesFilters [("income", Val.num 50)] [("income_min", Val.num 30)] =
      some (decide (lookupVal [("income", Val.num 50)] "income_min" = some (Val.num 30))) := by
  refine ⟨by decide, by decide, Or.inl (by decide), ?_⟩
  exact (claim_C3 [("income", Val.num 50)] "income_min" (Val.num 30) 30
    (by decide) (by decide) (Or.inl (by decide))).1

/-- C4 counterexample.  The claim asserts the empty filter spec returns all
of `N` unchanged; on the code a post-typed node is dropped even by the
empty spec. -/
theorem claim_C4_counterexample :
    filter_users_by_attributes [("p1", [("type", Val.str "post")])] [] = some [] ∧
    ([] : List (String × Attrs)) ≠ [("p1", [("type", Val.str "post")])] := by
  constructor
  · simp [filter_users_by_attributes, isUserNode, lookupVal]
  · simp

/-- C4 (amended): `filterCandidates(N, F)` is always an order-preserving
subsequence of `N`; with the empty spec it returns exactly the user-typed
nodes of `N` in original order — in particular all of `N` whenever every
node of `N` is user-typed. -/
theorem claim_C4 (N : List (String × Attrs)) (F : List (String × Val))
    (r : List (String × Attrs)) (h : filter_users_by_attributes N F = some r) :
    r.Sublist N ∧
    (F = [] → r = N.filter fun p => isUserNode p.2) ∧
    (F = [] → (∀ p ∈ N, isUserNode p.2 = true) → r = N) := by
  refine ⟨filter_users_sublist N F r h, ?_, ?_⟩
  · rintro rfl
    rw [filter_users_nil_spec N] at h
    exact (Option.some_inj.mp h).symm
  · rintro rfl hall
    rw [filter_users_nil_spec N] at h
    obtain rfl : N.filter (fun p => isUserNode p.2) = r := Option.some_inj.mp h
    exact List.filter_eq_self.mpr hall

/-- C4 witness: a concrete instantiation of the amended claim. -/
theorem claim_C4_witness :
    filter_users_by_attributes
      [("u1", [("type", Val.str "user")]), ("p1", [("type", Val.str "post")])] [] =
      some [("u1", [("type", Val.str "user")])] ∧
    List.Sublist [("u1", [("type", Val.str "user")])]
      [("u1", [("type", Val.str "user")]), ("p1", [("type", Val.str "post")])] := by
  refine ⟨by decide, ?_⟩
  exact (claim_C4 [("u1", [("type", Val.str "user")]), ("p1", [("type", Val.str "post")])]
    [] [("u1", [("type", Val.str "user")])] (by decide)).1

/-- C8: the top-K selection returns an empty sequence for `k ≤ 0` instead of
raising, and returns an empty sequence on an empty candidate set for every
`k`. -/
theorem claim_C8 (C : List (String × Attrs)) (criteria : Attrs) (k : ℤ) :
    (k ≤ 0 → select_top_users C criteria k = []) ∧
    select_top_users [] criteria k = [] := by
  constructor
  · intro hk
    unfold select_top_users
    have h0 : (min k (C.length : ℤ)).toNat = 0 := by omega
    rw [h0]
    simp
  · unfold select_top_users
    simp [List.insertionSort]

/-- C8 witness: `k = -1` on a non-empty candidate set, and an empty
candidate set. -/
theorem claim_C8_witness :
    ((-1 : ℤ) ≤ 0 ∧ select_top_users [("a", [])] [] (-1) = []) ∧
    select_top_users [] [] (-1) = [] := by
  refine ⟨⟨by decide, (claim_C8 [("a", [])] [] (-1)).1 (by decide)⟩, ?_⟩
  exact (claim_C8 [] [] (-1)).2

/-- C9: every candidate produced by the candidate-collection step (with an
absent, empty, or non-empty attribute filter spec) is user-typed; no
post-typed node can appear among the ranking candidates. -/
theorem claim_C9 (nodes : List (String × Attrs)) (af : Option (List (String × Val)))
    (r : List (String × Attrs)) (h : candidate_users nodes af = some r) :
    ∀ p ∈ r, lookupVal p.2 "type" = some (Val.str "user") ∧
      lookupVal p.2 "type" ≠ some (Val.str "post") := by
  have key : ∀ p ∈ r, isUserNode p.2 = true := by
    cases af with
    | none =>
      simp only [candidate_users, Option.some_inj] at h
      subst h
      intro p hp
      exact (List.mem_filter.mp hp).2
    | some fs =>
      by_cases hfs : fs.isEmpty
      · simp only [candidate_users, if_pos hfs, Option.some_inj] at h
        subst h
        intro p hp
        exact (List.mem_filter.mp hp).2
      · simp only [candidate_users, if_neg hfs] at h
        exact filter_users_mem_isUser nodes fs r h
  intro p hp
  have he : lookupVal p.2 "type" = some (Val.str "user") := by
    simpa [isUserNode] using key p hp
  refine ⟨he, ?_⟩
  rw [he]
  simp

/-- C9 witness: a node table holding one user and one post, no filter
spec. -/
theorem claim_C9_witness :
    candidate_users
      [("u1", [("type", Val.str "user")]), ("p1", [("type", Val.str "post")])] none =
      some [("u1", [("type", Val.str "user")])] ∧
    lookupVal [("type", Val.str "user")] "type" = some (Val.str "user") := by
  refine ⟨by decide, ?_⟩
  exact (claim_C9 [("u1", [("type", Val.str "user")]), ("p1", [("type", Val.str "post")])]
    none [("u1", [("type", Val.str "user")])] (by decide)
    ("u1", [("type", Val.str "user")]) (by simp)).1

/-- C10: the trending-score computation is total: fewer than two view
records give 0.0, and coinciding earliest/latest view timestamps give 0,
so the division by elapsed hours is never a division by zero. -/
theorem claim_C10 (views : List ViewEvent) :
    (views.length < 2 → compute_trending_score views = 0) ∧
    ((∀ v ∈ views, ∀ w ∈ views, v.timestamp = w.timestamp) →
      compute_trending_score views = 0) := by
  constructor
  · intro hlen
    unfold compute_trending_score
    rw [if_pos hlen]
  · intro hts
    by_cases hlen : views.length < 2
    · unfold compute_trending_score
      rw [if_pos hlen]
    · unfold compute_trending_score
      rw [if_neg hlen]
      cases hh : (List.insertionSort viewLe views).head? with
      | none => simp [hh]
      | some v0 =>
        cases hl : (List.insertionSort viewLe views).getLast? with
        | none => simp [hh, hl]
        | some vLast =>
          have hperm := List.perm_insertionSort viewLe views
          have hv0 : v0 ∈ views :=
            hperm.mem_iff.mp (List.mem_of_mem_head? (by simp [hh]))
          have hvL : vLast ∈ views :=
            hperm.mem_iff.mp (List.mem_of_getLast?_eq_some hl)
          have hts0 : vLast.timestamp - v0.timestamp = 0 := by
            rw [hts vLast hvL v0 hv0]
            ring
          simp only [hh, hl, hts0]
          norm_num

/-- C10 witness: a single-view post, and a two-view post whose timestamps
coincide. -/
theorem claim_C10_witness :
    (([⟨3, 1⟩] : List ViewEvent).length < 2 ∧
      compute_trending_score [⟨3, 1⟩] = 0) ∧
    ((∀ v ∈ ([⟨0, 2⟩, ⟨0, 7⟩] : List ViewEvent), ∀ w ∈ ([⟨0, 2⟩, ⟨0, 7⟩] : List ViewEvent),
        v.timestamp = w.timestamp) ∧
      compute_trending_score [⟨0, 2⟩, ⟨0, 7⟩] = 0) := by
  have hall : ∀ v ∈ ([⟨0, 2⟩, ⟨0, 7⟩] : List ViewEvent),
      ∀ w ∈ ([⟨0, 2⟩, ⟨0, 7⟩] : List ViewEvent), v.timestamp = w.timestamp := by
    simp
  refine ⟨⟨by simp, (claim_C10 [⟨3, 1⟩]).1 (by simp)⟩, hall, (claim_C10 _).2 hall⟩

/-- C6: the reading-level estimate is `"high"` above mean word length 6,
`"medium"` above 4, `"low"` otherwise; an empty or whitespace-only text has
zero words and yields `"low"` (the division is guarded, so a zero word
count never divides). -/
theorem claim_C6 (content : List Char) :
    (content = [] → estimate_reading_level content = "low") ∧
    (pySplit content = [] → estimate_reading_level content = "low") ∧
    (6 < meanWordLength content → estimate_reading_level content = "high") ∧
    (meanWordLength content ≤ 6 → 4 < meanWordLength content →
      estimate_reading_level content = "medium") ∧
    (meanWordLength content ≤ 4 → estimate_reading_level content = "low") := by
  by_cases hc : content = []
  · subst hc
    have hm0 : meanWordLength [] = 0 := by
      simp [meanWordLength, pySplit]
    have hlow : estimate_reading_level [] = "low" := by
      simp [estimate_reading_level]
    exact ⟨fun _ => hlow, fun _ => hlow,
      fun h => absurd h (by rw [hm0]; norm_num),
      fun h h4 => absurd h4 (by rw [hm0]; norm_num),
      fun _ => hlow⟩
  · have hcb : content.isEmpty = false := by
      cases content with
      | nil => exact absurd rfl hc
      | cons a l => rfl
    by_cases hw : pySplit content = []
    · have hm0 : meanWordLength content = 0 := by
        simp [meanWordLength, hw]
      have hlow : estimate_reading_level content = "low" := by
        simp only [estimate_reading_level, hcb, hw, Bool.false_eq_true, if_false,
          List.isEmpty_nil, if_true]
        norm_num
      exact ⟨fun _ => hlow, fun _ => hlow,
        fun h => absurd h (by rw [hm0]; norm_num),
        fun h h4 => absurd h4 (by rw [hm0]; norm_num),
        fun _ => hlow⟩
    · have hwb : (pySplit content).isEmpty = false := by
        cases hp : pySplit content with
        | nil => exact absurd hp hw
        | cons a l => rfl
      have hest : estimate_reading_level content =
          if 6 < meanWordLength content then "high"
          else if 4 < meanWordLength content then "medium" else "low" := by
        simp only [estimate_reading_level, hcb, hwb, Bool.false_eq_true, if_false,
          meanWordLength]
      refine ⟨fun h => absurd h hc, fun h => absurd h hw, ?_, ?_, ?_⟩
      · intro h6
        rw [hest, if_pos h6]
      · intro h6 h4
        rw [hest, if_neg (not_lt.mpr h6), if_pos h4]
      · intro h4
        rw [hest, if_neg (not_lt.mpr (h4.trans (by norm_num))), if_neg (not_lt.mpr h4)]

/-- C6 witness: a two-word text of mean word length 7 is estimated
`"high"`. -/
theorem claim_C6_witness :
    6 < meanWordLength ['a', 'a', 'a', 'a', 'a', 'a', 'a', ' ', 'b', 'b', 'b', 'b', 'b', 'b', 'b'] ∧
    estimate_reading_level ['a', 'a', 'a', 'a', 'a', 'a', 'a', ' ', 'b', 'b', 'b', 'b', 'b', 'b', 'b'] = "high" := by
  have hw : pySplit ['a', 'a', 'a', 'a', 'a', 'a', 'a', ' ', 'b', 'b', 'b', 'b', 'b', 'b', 'b'] =
      [['a', 'a', 'a', 'a', 'a', 'a', 'a'], ['b', 'b', 'b', 'b', 'b', 'b', 'b']] := by
    decide
  have h6 : 6 < meanWordLength ['a', 'a', 'a', 'a', 'a', 'a', 'a', ' ', 'b', 'b', 'b', 'b', 'b', 'b', 'b'] := by
    simp only [meanWordLength, hw]
    norm_num
  exact ⟨h6, (claim_C6 _).2.2.1 h6⟩

/-- C7: a user's derived reading level is the rounded mean (low=1, medium=2,
high=3) of the authored posts' estimated reading levels, thresholds
`≤ 1.5 → "low"`, `≤ 2.5 → "medium"`, else `"high"`; a user with no posts
gets `"medium"`. -/
theorem claim_C7 (postContents : List (List Char)) :
    (postContents = [] → calculate_user_reading_level postContents = "medium") ∧
    (avgReadingNumeric postContents ≤ 3/2 → postContents ≠ [] →
      calculate_user_reading_level postContents = "low") ∧
    (3/2 < avgReadingNumeric postContents → avgReadingNumeric postContents ≤ 5/2 →
      calculate_user_reading_level postContents = "medium") ∧
    (5/2 < avgReadingNumeric postContents →
      calculate_user_reading_level postContents = "high") := by
  by_cases hc : postContents = []
  · subst hc
    have hm : avgReadingNumeric [] = 0 := by
      simp [avgReadingNumeric]
    refine ⟨fun _ => rfl, fun _ h => absurd rfl h, ?_, ?_⟩
    · intro h _
      rw [hm] at h
      norm_num at h
    · intro h
      rw [hm] at h
      norm_num at h
  · have hcb : postContents.isEmpty = false := by
      cases postContents with
      | nil => exact absurd rfl hc
      | cons a l => rfl
    have hest : calculate_user_reading_level postContents =
        if avgReadingNumeric postContents ≤ 3/2 then "low"
        else if avgReadingNumeric postContents ≤ 5/2 then "medium" else "high" := by
      simp only [calculate_user_reading_level, hcb, Bool.false_eq_true, if_false]
    refine ⟨fun h => absurd h hc, ?_, ?_, ?_⟩
    · intro h _
      rw [hest, if_pos h]
    · intro h1 h2
      rw [hest, if_neg (not_le.mpr h1), if_pos h2]
    · intro h
      rw [hest, if_neg (not_le.mpr ((by norm_num : (3:ℚ)/2 < 5/2).trans h)),
        if_neg (not_le.mpr h)]

/-- C7 witness: one authored post of mean word length 7 (level `"high"`,
numeric 3) gives a user reading level `"high"`. -/
theorem claim_C7_witness :
    5/2 < avgReadingNumeric [['a', 'a', 'a', 'a', 'a', 'a', 'a']] ∧
    calculate_user_reading_level [['a', 'a', 'a', 'a', 'a', 'a', 'a']] = "high" := by
  have hw : pySplit ['a', 'a', 'a', 'a', 'a', 'a', 'a'] = [['a', 'a', 'a', 'a', 'a', 'a', 'a']] := by
    decide
  have hhigh : estimate_reading_level ['a', 'a', 'a', 'a', 'a', 'a', 'a'] = "high" := by
    simp only [estimate_reading_level, hw]
    norm_num
  have h3 : avgReadingNumeric [['a', 'a', 'a', 'a', 'a', 'a', 'a']] = 3 := by
    simp [avgReadingNumeric, hhigh, readingLevelsGet]
  refine ⟨by rw [h3]; norm_num, (claim_C7 _).2.2.2 (by rw [h3]; norm_num)⟩

/-- C5 counterexample.  The claim asserts the middle user (post_count 15,
total_views 800) scores 115; the code computes `15*2 + 800*0.1 = 110`. -/
theorem claim_C5_counterexample :
    calculate_interest_score [("post_count", Val.num 15), ("total_views", Val.num 800)]
      [("post_count_preference", Val.str "high"), ("post_weight", Val.num 2),
        ("view_weight", Val.num (1/10))] = 110 ∧
    (110 : ℚ) ≠ 115 := by
  constructor
  · simp +decide only [calculate_interest_score, lookupVal, getNumD, getValD, readingLevelsGet]
    norm_num
  · norm_num

/-- C5 (amended): with users of post_count 8, 15, 18 and total_views 350,
800, 950 under criteria `{post_count_preference: high, post_weight: 2,
view_weight: 0.1}`, the top-1 selection is the user with post_count 18 at
score exactly 131 (= 18*2 + 950*0.1), beating scores 110 and 51 of the
other two. -/
theorem claim_C5 :
    select_top_users
      [("user_a", [("post_count", Val.num 8), ("total_views", Val.num 350)]),
       ("user_b", [("post_count", Val.num 15), ("total_views", Val.num 800)]),
       ("user_c", [("post_count", Val.num 18), ("total_views", Val.num 950)])]
      [("post_count_preference", Val.str "high"), ("post_weight", Val.num 2),
        ("view_weight", Val.num (1/10))] 1 =
      [⟨"user_c", 131, [("post_count", Val.num 18), ("total_views", Val.num 950)]⟩] ∧
    calculate_interest_score [("post_count", Val.num 18), ("total_views", Val.num 950)]
      [("post_count_preference", Val.str "high"), ("post_weight", Val.num 2),
        ("view_weight", Val.num (1/10))] = 131 ∧
    calculate_interest_score [("post_count", Val.num 15), ("total_views", Val.num 800)]
      [("post_count_preference", Val.str "high"), ("post_weight", Val.num 2),
        ("view_weight", Val.num (1/10))] = 110 ∧
    calculate_interest_score [("post_count", Val.num 8), ("total_views", Val.num 350)]
      [("post_count_preference", Val.str "high"), ("post_weight", Val.num 2),
        ("view_weight", Val.num (1/10))] = 51 := by
  have ha : calculate_interest_score [("post_count", Val.num 8), ("total_views", Val.num 350)]
      [("post_count_preference", Val.str "high"), ("post_weight", Val.num 2),
        ("view_weight", Val.num (1/10))] = 51 := by
    simp +decide only [calculate_interest_score, lookupVal, getNumD, getValD, readingLevelsGet]
    norm_num
  have hb : calculate_interest_score [("post_count", Val.num 15), ("total_views", Val.num 800)]
      [("post_count_preference", Val.str "high"), ("post_weight", Val.num 2),
        ("view_weight", Val.num (1/10))] = 110 := by
    simp +decide only [calculate_interest_score, lookupVal, getNumD, getValD, readingLevelsGet]
    norm_num
  have hcc : calculate_interest_score [("post_count", Val.num 18), ("total_views", Val.num 950)]
      [("post_count_preference", Val.str "high"), ("post_weight", Val.num 2),
        ("view_weight", Val.num (1/10))] = 131 := by
    simp +decide only [calculate_interest_score, lookupVal, getNumD, getValD, readingLevelsGet]
    norm_num
  refine ⟨?_, hcc, hb, ha⟩
  unfold select_top_users
  simp only [List.map_cons, List.map_nil, ha, hb, hcc]
  norm_num [List.insertionSort, List.orderedInsert, entryLe]

/-- C1: for a candidate set with (necessarily unique) node ids, the top-K
selection returns `min(k, |C|)` results ordered by descending interest
score with equal-score ties broken by ascending id, each result carrying
its candidate's score; for `k ≥ |C|` it returns all of `C` in that
order. -/
theorem claim_C1 (C : List (String × Attrs)) (criteria : Attrs) (k : ℕ)
    (hids : (C.map Prod.fst).Nodup) :
    (select_top_users C criteria (k : ℤ)).length = min k C.length ∧
    (select_top_users C criteria (k : ℤ)).Pairwise
      (fun a b => b.score < a.score ∨ (a.score = b.score ∧ a.user_id < b.user_id)) ∧
    (∀ u ∈ select_top_users C criteria (k : ℤ),
      u.score = calculate_interest_score u.data criteria) ∧
    (C.length ≤ k →
      ((select_top_users C criteria (k : ℤ)).map fun u => (u.user_id, u.data)).Perm C) := by
  have e1 : (min (k : ℤ) (C.length : ℤ)).toNat = min k C.length := by omega
  have hsel : select_top_users C criteria (k : ℤ) =
      ((List.insertionSort entryLe
        (C.map fun c => (-(calculate_interest_score c.2 criteria), c.1, c.2))).take
        (min k C.length)).map (fun e => (⟨e.2.1, -e.1, e.2.2⟩ : RankedUser)) := by
    unfold select_top_users
    rw [e1]
  set entries := C.map fun c => (-(calculate_interest_score c.2 criteria), c.1, c.2)
    with hentries
  set sorted := List.insertionSort entryLe entries with hsorted
  have hperm : sorted.Perm entries := List.perm_insertionSort entryLe entries
  have hpw : sorted.Pairwise entryLe := List.sorted_insertionSort entryLe entries
  have hlen : sorted.length = C.length := by
    rw [hperm.length_eq, hentries, List.length_map]
  have hids2 : sorted.Pairwise fun a b => a.2.1 ≠ b.2.1 := by
    have h1 : (entries.map fun e => e.2.1).Nodup := by
      rw [hentries, List.map_map]
      exact hids
    have h2 : (sorted.map fun e => e.2.1).Nodup := ((hperm.map _).nodup_iff).mpr h1
    exact List.pairwise_map.mp h2
  have hcomb : sorted.Pairwise fun a b => entryLe a b ∧ a.2.1 ≠ b.2.1 := hpw.and hids2
  refine ⟨?_, ?_, ?_, ?_⟩
  · rw [hsel]
    simp only [List.length_map, List.length_take, hlen]
    omega
  · rw [hsel, List.pairwise_map]
    refine (List.Pairwise.sublist (List.take_sublist _ _) hcomb).imp ?_
    rintro a b ⟨hle, hne⟩
    rcases hle with h | ⟨heq, hle2⟩
    · exact Or.inl (neg_lt_neg h)
    · exact Or.inr ⟨by rw [heq], lt_of_le_of_ne hle2 hne⟩
  · intro u hu
    rw [hsel] at hu
    obtain ⟨e, he, rfl⟩ := List.mem_map.mp hu
    have he2 : e ∈ entries := hperm.mem_iff.mp (List.mem_of_mem_take he)
    rw [hentries] at he2
    obtain ⟨c, hcmem, rfl⟩ := List.mem_map.mp he2
    exact neg_neg _
  · intro hk
    rw [hsel]
    have hmin2 : min k C.length = C.length := by omega
    rw [hmin2, ← hlen, List.take_length, List.map_map]
    have hfin : entries.map ((fun u : RankedUser => (u.user_id, u.data)) ∘
        (fun e : ℚ × String × Attrs => (⟨e.2.1, -e.1, e.2.2⟩ : RankedUser))) = C := by
      rw [hentries, List.map_map]
      exact List.map_id C
    exact hfin ▸ (hperm.map _)

/-- C1 witness: two candidates with distinct ids and `k = 5 ≥ 2`. -/
theorem claim_C1_witness :
    (([("b", []), ("a", [])] : List (String × Attrs)).map Prod.fst).Nodup ∧
    (select_top_users [("b", []), ("a", [])] [] ((5 : ℕ) : ℤ)).length = min 5 2 := by
  refine ⟨by decide, ?_⟩
  have h := (claim_C1 [("b", []), ("a", [])] [] 5 (by decide)).1
  simpa using h

end SocialNetwork
